import Mathlib

/-!
Verification of the texture-compiler build driver (`src/bin/texture.js`).

The development embeds the driver shallowly: the pure path-rewriting
helpers are Lean functions on character lists, the build lifecycle is a
function from an abstract environment (outcomes of the two fallible
external calls: the opaque compile capability and the sidecar file
write) to an observable outcome consisting of an event trace, the
finished build result (if the build was finished) and the requested
process exit code (if any).

External collaborators that are not part of this repository's source
(the `datacompiler` module's path/build-state utilities, Node's
`path.basename` / `path.join`) are modelled from the specification;
each such definition carries a doc comment saying so.
-/

/- ## Path model

Paths are character lists (wrapped into `String` at the API surface).
`splitAtLast sep s` splits `s` at the LAST occurrence of `sep`,
returning the parts before and after it, or `none` when `sep` does not
occur. -/

def splitAtLast (sep : Char) : List Char → Option (List Char × List Char)
  | [] => none
  | c :: rest =>
    match splitAtLast sep rest with
    | some (a, b) => some (c :: a, b)
    | none => if c = sep then some ([], rest) else none

theorem splitAtLast_eq_none_of_not_mem (sep : Char) (s : List Char)
    (h : sep ∉ s) : splitAtLast sep s = none := by
  induction s with
  | nil => rfl
  | cons c rest ih =>
    have hc : c ≠ sep := fun hcs => h (hcs ▸ List.mem_cons_self c rest)
    have hrest : sep ∉ rest := fun hm => h (List.mem_cons_of_mem c hm)
    simp [splitAtLast, ih hrest, hc]

theorem not_mem_of_splitAtLast_eq_none (sep : Char) (s : List Char)
    (h : splitAtLast sep s = none) : sep ∉ s := by
  induction s with
  | nil => simp
  | cons c rest ih =>
    intro hm
    unfold splitAtLast at h
    cases hsplit : splitAtLast sep rest with
    | some p => rw [hsplit] at h; cases h
    | none =>
      rw [hsplit] at h
      by_cases hc : c = sep
      · simp [hc] at h
      · rcases List.mem_cons.mp hm with h1 | h2
        · exact hc h1.symm
        · exact ih hsplit h2

theorem splitAtLast_append (sep : Char) (a b : List Char)
    (hb : sep ∉ b) : splitAtLast sep (a ++ sep :: b) = some (a, b) := by
  induction a with
  | nil =>
    simp [splitAtLast, splitAtLast_eq_none_of_not_mem sep b hb]
  | cons c a ih =>
    simp [splitAtLast, ih]

theorem splitAtLast_eq_some (sep : Char) (s a b : List Char)
    (h : splitAtLast sep s = some (a, b)) : s = a ++ sep :: b ∧ sep ∉ b := by
  induction s generalizing a b with
  | nil => cases h
  | cons c rest ih =>
    unfold splitAtLast at h
    cases hsplit : splitAtLast sep rest with
    | some p =>
      obtain ⟨a', b'⟩ := p
      rw [hsplit] at h
      simp only [Option.some.injEq, Prod.mk.injEq] at h
      obtain ⟨h1, h2⟩ := h
      subst h1
      subst h2
      obtain ⟨hdec, hmem⟩ := ih a' b' hsplit
      exact ⟨by simp [hdec], hmem⟩
    | none =>
      rw [hsplit] at h
      by_cases hc : c = sep
      · simp only [hc, if_pos rfl, Option.some.injEq, Prod.mk.injEq] at h
        obtain ⟨rfl, rfl⟩ := h
        exact ⟨by simp [hc], not_mem_of_splitAtLast_eq_none sep rest hsplit⟩
      · simp [hc] at h

/- The filename component of a path (everything after the last `/`),
and the directory component (everything before it). -/

def fileOfL (p : List Char) : List Char :=
  match splitAtLast '/' p with
  | some (_, f) => f
  | none => p

def dirOfL (p : List Char) : List Char :=
  match splitAtLast '/' p with
  | some (d, _) => d
  | none => []

/- The base name of a path's filename (before the last `.`), and its
extension (after the last `.`; empty when there is none). -/

/-- Strip the extension from a bare filename (no directory part). -/
def stripExtL (f : List Char) : List Char :=
  match splitAtLast '.' f with
  | some (b, _) => b
  | none => f

def baseOfL (p : List Char) : List Char :=
  stripExtL (fileOfL p)

def extOfL (p : List Char) : List Char :=
  match splitAtLast '.' (fileOfL p) with
  | some (_, e) => e
  | none => []

/-- Modelled from the spec: `DataCompiler.changeExtension` from the
external `datacompiler` module (not part of this repository's source).
Per the spec it replaces the file extension of the path with the given
extension, operating on the filename only, directory components
untouched. -/
def changeExtensionL (path ext : List Char) : List Char :=
  match splitAtLast '/' path with
  | some (d, f) => d ++ '/' :: (stripExtL f ++ '.' :: ext)
  | none => stripExtL path ++ '.' :: ext

/- String-level wrappers. -/

def changeExtension (path ext : String) : String :=
  ⟨changeExtensionL path.data ext.data⟩

def dirOf (p : String) : String := ⟨dirOfL p.data⟩

def baseOf (p : String) : String := ⟨baseOfL p.data⟩

def extOf (p : String) : String := ⟨extOfL p.data⟩

namespace Path

/-- Modelled from the spec: Node's `path.basename` (external to the
repository): the final path component, i.e. everything after the last
path separator. -/
def basename (p : String) : String := ⟨fileOfL p.data⟩

/-- Modelled from the spec: Node's `path.join` (external to the
repository), restricted to the one use in the source: joining a
directory to a bare filename with a separator. -/
def join (dir file : String) : String := dir ++ "/" ++ file

end Path

/- ## Exit codes (from `src/bin/texture.js`, `exit_code`) -/

namespace exit_code

/-- The program has exited successfully. -/
def SUCCESS : Nat := 0

/-- The program has exited with an unknown error. -/
def ERROR : Nat := 1

/-- The program has exited because the source file does not exist. -/
def FILE_NOT_FOUND : Nat := 2

end exit_code

/- ## Build state tracker

Modelled from the spec (the tracker lives in the external
`datacompiler` module, not in this repository's source): a build state
holds ordered outputs, ordered errors, and an open flag; mutators are
valid only while open and fail with a `ProtocolViolation` error
otherwise; finishing yields an immutable result snapshot. -/

structure BuildInput where
  sourcePath : String
  targetPath : String
  platform : String
  isIPC : Bool
  deriving DecidableEq, Repr

structure BuildState where
  outputs : List String
  errors : List String
  isOpen : Bool
  deriving DecidableEq, Repr

structure BuildResult where
  outputs : List String
  errors : List String
  succeeded : Bool
  deriving DecidableEq, Repr

/-- Modelled from the spec: `DataCompiler.startBuild` opens a fresh
build state with empty outputs and errors. -/
def startBuild (_input : BuildInput) : BuildState :=
  { outputs := [], errors := [], isOpen := true }

/-- Modelled from the spec: `addOutput` appends a path; valid only
while the state is open, otherwise it throws a protocol violation. -/
def addOutput (s : BuildState) (p : String) : Except String BuildState :=
  if s.isOpen then .ok { s with outputs := s.outputs ++ [p] }
  else .error "ProtocolViolation"

/-- Modelled from the spec: `addError` appends an error record; valid
only while the state is open, otherwise a protocol violation. -/
def addError (s : BuildState) (e : String) : Except String BuildState :=
  if s.isOpen then .ok { s with errors := s.errors ++ [e] }
  else .error "ProtocolViolation"

/-- Modelled from the spec: `DataCompiler.finishBuild` closes the state
and returns the result snapshot with `succeeded = errors.count == 0`. -/
def finishBuild (s : BuildState) : BuildResult :=
  { outputs := s.outputs, errors := s.errors, succeeded := s.errors.length == 0 }

/- ## Compiler invocation environment

Texture metadata is opaque; the model keeps only its serialized form
(`JSON.stringify(meta, null, tab)`, without the trailing newline that
`write_texture_metadata` appends itself). The two fallible external
calls inside the try block of `compiler_build` — the opaque
`TextureCompiler.compile` capability and `Filesystem.writeFileSync` —
are modelled by their outcomes, supplied as an environment. A failed
write is atomic: it leaves no file behind. -/

structure TexMeta where
  json : String
  deriving DecidableEq, Repr

structure ExtEnv where
  compileResult : Except String TexMeta
  writeResult : Except String Unit

/-- The observable events of one `compiler_build` call, in program
order. -/
inductive Ev where
  | wroteFile (path content : String)
  | addedOutput (path : String)
  | addedError (e : String)
  | printedErr (line : String)
  | exited (code : Nat)
  | finishedBuild (r : BuildResult)
  deriving DecidableEq, Repr

/-- The outcome of one `compiler_build` call: the chronological event
trace, the finished result when `finishBuild` ran, the exit code when
`process.exit` was called, and the error when an exception escaped the
function (never happens in reachable states). -/
structure BuildOutcome where
  trace : List Ev
  result : Option BuildResult
  exitCode : Option Nat
  escaped : Option String
  deriving DecidableEq, Repr

/-- Embedding of `compiler_build` (`src/bin/texture.js` lines 101-149).
The body opens a build state, computes the metadata path by replacing
the target path's extension with `texture`, then inside a try block
compiles, writes the sidecar, and records the two outputs; the catch
block records the single error and, when not in persistent mode,
prints it and exits with the error code; otherwise control reaches
`finishBuild`. `persistent` is the value of
`application.args.persistent` read by the catch block. -/
def compiler_build (env : ExtEnv) (persistent : Bool) (input : BuildInput) :
    BuildOutcome :=
  let state0 := startBuild input
  let mpath := changeExtension input.targetPath "texture"
  let ppath := input.targetPath
  -- the try block: threads the build state and emitted events, and
  -- surfaces the thrown error (if any) to the catch block below
  let tryRes : BuildState × List Ev × Option String :=
    match env.compileResult with
    | .error e => (state0, [], some e)
    | .ok md =>
      match env.writeResult with
      | .error e => (state0, [], some e)
      | .ok _ =>
        let evW := Ev.wroteFile mpath (md.json ++ "\n")
        match addOutput state0 mpath with
        | .error v => (state0, [evW], some v)
        | .ok s1 =>
          match addOutput s1 ppath with
          | .error v => (s1, [evW, .addedOutput mpath], some v)
          | .ok s2 => (s2, [evW, .addedOutput mpath, .addedOutput ppath], none)
  match tryRes with
  | (s, evs, none) =>
    { trace := evs ++ [.finishedBuild (finishBuild s)],
      result := some (finishBuild s), exitCode := none, escaped := none }
  | (s, evs, some e) =>
    match addError s e with
    | .ok s1 =>
      if persistent then
        { trace := evs ++ [.addedError e, .finishedBuild (finishBuild s1)],
          result := some (finishBuild s1), exitCode := none, escaped := none }
      else
        { trace := evs ++ [.addedError e,
            .printedErr "An error has occurred:",
            .printedErr ("  " ++ e), .printedErr "",
            .exited exit_code.ERROR],
          result := none, exitCode := some exit_code.ERROR, escaped := none }
    | .error v =>
      -- a protocol violation thrown from inside the catch block would
      -- escape compiler_build; unreachable since the state is open
      { trace := evs, result := none, exitCode := none, escaped := some v }

/- Observers over the event trace. -/

def addedOutputs (t : List Ev) : List String :=
  t.filterMap fun e => match e with | .addedOutput p => some p | _ => none

def addedErrors (t : List Ev) : List String :=
  t.filterMap fun e => match e with | .addedError m => some m | _ => none

def filesWritten (t : List Ev) : List (String × String) :=
  t.filterMap fun e => match e with | .wroteFile p c => some (p, c) | _ => none

def printedLines (t : List Ev) : List String :=
  t.filterMap fun e => match e with | .printedErr l => some l | _ => none

def finishCount (t : List Ev) : Nat :=
  (t.filter fun e => match e with | .finishedBuild _ => true | _ => false).length

/-- `true` when, scanning the trace in order, no output is recorded
before the sidecar write has happened. -/
def writeBeforeOutput : List Ev → Bool
  | [] => true
  | Ev.addedOutput _ :: _ => false
  | Ev.wroteFile _ _ :: _ => true
  | _ :: rest => writeBeforeOutput rest

/-- The cause of the build failure induced by the environment, if any:
the compile error, or else the sidecar-write error. -/
def buildFailCause (env : ExtEnv) : Option String :=
  match env.compileResult with
  | .error e => some e
  | .ok _ =>
    match env.writeResult with
    | .error e => some e
    | .ok _ => none

/- ## Command line and dispatcher -/

/-- The pre-digested command-line options as parsed by commander, with
the defaults from `command_line` (`Boolean false` for `--persistent`,
empty strings for the path/target options). -/
structure CmdOpts where
  persistent : Bool
  input : String
  output : String
  target : String
  deriving DecidableEq, Repr

/-- The ambient process environment read by `command_line`:
`DataCompiler.isFile` (modelled from the spec as an oracle telling
whether a path references an existing file), `process.cwd()` and
`process.argv[1]`. -/
structure CmdEnv where
  isFile : String → Bool
  cwd : String
  argv1 : String

/-- The configuration object returned by `command_line` on the
non-exiting paths. -/
structure AppArgs where
  persistent : Bool
  sourcePath : String
  targetPath : String
  platform : String
  deriving DecidableEq, Repr

/-- The outcome of `command_line`: either the process exited (with a
code and the lines printed to the console), or a configuration object
was returned. -/
inductive CmdResult where
  | exited (code : Nat) (msgs : List String)
  | ok (args : AppArgs)
  deriving DecidableEq, Repr

/-- Embedding of `command_line` (`src/bin/texture.js` lines 40-86).
In persistent mode the remaining arguments are ignored; otherwise a
missing or non-existent input exits with `FILE_NOT_FOUND`, and an
empty `--output` is defaulted to the input's base filename with the
`pixels` extension joined to the current working directory. -/
def command_line (env : CmdEnv) (opts : CmdOpts) : CmdResult :=
  if opts.persistent then
    .ok { persistent := true, sourcePath := env.argv1,
          targetPath := env.argv1, platform := "" }
  else if !env.isFile opts.input then
    .exited exit_code.FILE_NOT_FOUND
      ["Error: No input file specified or input file not found.", ""]
  else
    let output :=
      if opts.output = "" then
        Path.join env.cwd (changeExtension (Path.basename opts.input) "pixels")
      else opts.output
    .ok { persistent := false, sourcePath := opts.input,
          targetPath := output, platform := opts.target }

/-- The outcome of the `Main` entry function: an exit inside
`command_line` (no build state was ever opened), a synchronous
stand-alone build, or persistent mode going idle awaiting IPC build
events. -/
inductive MainOutcome where
  | exitedEarly (code : Nat) (msgs : List String)
  | ranBuild (args : AppArgs) (outcome : BuildOutcome)
  | idlePersistent (args : AppArgs)
  deriving DecidableEq, Repr

/-- Embedding of the `Main` entry point (`src/bin/texture.js` lines
202-214): parse the command line, and when not in IPC mode run exactly
one build synchronously from the derived arguments. -/
def Main (cenv : CmdEnv) (benv : ExtEnv) (opts : CmdOpts) : MainOutcome :=
  match command_line cenv opts with
  | .exited c m => .exitedEarly c m
  | .ok args =>
    if args.persistent then .idlePersistent args
    else
      .ranBuild args (compiler_build benv false
        { sourcePath := args.sourcePath, targetPath := args.targetPath,
          platform := args.platform, isIPC := false })

/- ## IPC build event handler -/

/-- The payload of the DataCompiler `build` event. -/
structure BuildEventData where
  sourcePath : String
  targetPath : String
  platform : String
  deriving DecidableEq, Repr

/-- Embedding of the `DataCompiler.on` build handler
(`src/bin/texture.js` lines 168-176): runs `compiler_build` with
`isIPC = true`. `persistentFlag` is the ambient
`application.args.persistent` value, which is `true` whenever the
handler can fire (the event is only delivered in persistent mode). -/
def handle_build_event (env : ExtEnv) (persistentFlag : Bool)
    (data : BuildEventData) : BuildOutcome :=
  compiler_build env persistentFlag
    { sourcePath := data.sourcePath, targetPath := data.targetPath,
      platform := data.platform, isIPC := true }

/- ## Process-level event registrations -/

/-- The event names for which `src/bin/texture.js` registers a
process-level handler (lines 178-200), in registration order. -/
def processEventRegistrations : List String :=
  ["unhandledException", "SIGTERM", "SIGINT"]

/-- The event name the Node platform actually emits when an exception
propagates to the top of the event loop uncaught. This is documented
platform behaviour, external to the repository. -/
def nodeUncaughtEventName : String := "uncaughtException"

/-- What the registered unhandled-exception handler would do if it were
ever invoked with an error: print three diagnostic lines and exit with
the error code (`src/bin/texture.js` lines 180-185). -/
def unhandled_exception_handler (error : String) : List String × Nat :=
  (["An unhandled exception has occurred:", "  Error: " ++ error, ""],
    exit_code.ERROR)

/- ## Properties of extension replacement -/

theorem stripExtL_mem (f : List Char) (c : Char) (h : c ∈ stripExtL f) :
    c ∈ f := by
  unfold stripExtL at h
  cases hs : splitAtLast '.' f with
  | none => rwa [hs] at h
  | some p =>
    obtain ⟨b, x⟩ := p
    rw [hs] at h
    simp only [] at h
    obtain ⟨hdec, -⟩ := splitAtLast_eq_some '.' f b x hs
    rw [hdec]
    exact List.mem_append_left _ h

theorem stripExtL_append_ext (b e : List Char) (he : '.' ∉ e) :
    stripExtL (b ++ '.' :: e) = b := by
  unfold stripExtL
  rw [splitAtLast_append '.' b e he]

/-- Replacing the extension (with an extension containing neither a dot
nor a separator) preserves the directory and base-name components and
sets the extension component. -/
theorem changeExtensionL_parts (p e : List Char)
    (he1 : '.' ∉ e) (he2 : '/' ∉ e) :
    dirOfL (changeExtensionL p e) = dirOfL p ∧
    baseOfL (changeExtensionL p e) = baseOfL p ∧
    extOfL (changeExtensionL p e) = e := by
  cases hs : splitAtLast '/' p with
  | none =>
    have hp : '/' ∉ p := not_mem_of_splitAtLast_eq_none '/' p hs
    have hres : '/' ∉ stripExtL p ++ '.' :: e := by
      intro hm
      rcases List.mem_append.mp hm with h1 | h2
      · exact hp (stripExtL_mem p '/' h1)
      · rcases List.mem_cons.mp h2 with h3 | h4
        · cases h3
        · exact he2 h4
    have hnone : splitAtLast '/' (stripExtL p ++ '.' :: e) = none :=
      splitAtLast_eq_none_of_not_mem '/' _ hres
    have hdot : splitAtLast '.' (stripExtL p ++ '.' :: e) =
        some (stripExtL p, e) := splitAtLast_append '.' _ e he1
    refine ⟨?_, ?_, ?_⟩
    · simp [changeExtensionL, hs, dirOfL, hnone]
    · simp [changeExtensionL, hs, baseOfL, fileOfL, hnone,
        stripExtL_append_ext _ _ he1]
    · simp [changeExtensionL, hs, extOfL, fileOfL, hnone, hdot]
  | some q =>
    obtain ⟨d, f⟩ := q
    obtain ⟨hdec, hf⟩ := splitAtLast_eq_some '/' p d f hs
    have hres : '/' ∉ stripExtL f ++ '.' :: e := by
      intro hm
      rcases List.mem_append.mp hm with h1 | h2
      · exact hf (stripExtL_mem f '/' h1)
      · rcases List.mem_cons.mp h2 with h3 | h4
        · cases h3
        · exact he2 h4
    have hsome : splitAtLast '/' (d ++ '/' :: (stripExtL f ++ '.' :: e)) =
        some (d, stripExtL f ++ '.' :: e) := splitAtLast_append '/' d _ hres
    have hdot : splitAtLast '.' (stripExtL f ++ '.' :: e) =
        some (stripExtL f, e) := splitAtLast_append '.' _ e he1
    refine ⟨?_, ?_, ?_⟩
    · simp [changeExtensionL, hs, dirOfL, hsome]
    · simp [changeExtensionL, hs, baseOfL, fileOfL, hsome,
        stripExtL_append_ext _ _ he1]
    · simp [changeExtensionL, hs, extOfL, fileOfL, hsome, hdot]

/- ## Claim theorems -/

/-- C1: for every build whose compile step and metadata write both
succeed, the finished build result has exactly two recorded outputs —
the derived metadata path first, then the target (payload) path — and
zero recorded errors, and no process exit is requested. -/
theorem c1_success_two_outputs_no_errors (env : ExtEnv) (persistent : Bool)
    (input : BuildInput) (md : TexMeta)
    (hc : env.compileResult = .ok md) (hw : env.writeResult = .ok ()) :
    (compiler_build env persistent input).result =
      some { outputs := [changeExtension input.targetPath "texture",
                         input.targetPath],
             errors := [], succeeded := true } ∧
    (compiler_build env persistent input).exitCode = none := by
  simp [compiler_build, hc, hw, startBuild, addOutput, finishBuild]

/-- Witness for C1 at a concrete environment and input. -/
theorem c1_witness :
    (compiler_build ⟨.ok ⟨"\x7b\x7d"⟩, .ok ()⟩ false
        ⟨"a.png", "/w/a.pixels", "", false⟩).result =
      some { outputs := ["/w/a.texture", "/w/a.pixels"],
             errors := [], succeeded := true } := by
  have h := c1_success_two_outputs_no_errors ⟨.ok ⟨"\x7b\x7d"⟩, .ok ()⟩ false
    ⟨"a.png", "/w/a.pixels", "", false⟩ ⟨"\x7b\x7d"⟩ rfl rfl
  rw [h.1]
  decide

/-- C2: for every build whose compile step fails, exactly one error
(carrying the cause) is recorded, no output is recorded and no file is
written; when not in persistent mode the error message is printed to
the diagnostic stream and the process exits with the error code, which
is 1, before the build is finished. -/
theorem c2_compile_failure (env : ExtEnv) (persistent : Bool)
    (input : BuildInput) (e : String)
    (hc : env.compileResult = .error e) :
    addedErrors (compiler_build env persistent input).trace = [e] ∧
    addedOutputs (compiler_build env persistent input).trace = [] ∧
    filesWritten (compiler_build env persistent input).trace = [] ∧
    exit_code.ERROR = 1 ∧
    (persistent = false →
      (compiler_build env persistent input).exitCode = some exit_code.ERROR ∧
      printedLines (compiler_build env persistent input).trace =
        ["An error has occurred:", "  " ++ e, ""] ∧
      (compiler_build env persistent input).result = none) := by
  cases persistent <;>
    simp [compiler_build, hc, startBuild, addError, finishBuild,
      addedErrors, addedOutputs, filesWritten, printedLines, exit_code.ERROR]

/-- Witness for C2 at a concrete environment and input. -/
theorem c2_witness :
    addedErrors (compiler_build ⟨.error "boom", .ok ()⟩ false
        ⟨"a.png", "/w/a.pixels", "", false⟩).trace = ["boom"] ∧
    (compiler_build ⟨.error "boom", .ok ()⟩ false
        ⟨"a.png", "/w/a.pixels", "", false⟩).exitCode = some 1 := by
  have h := c2_compile_failure ⟨.error "boom", .ok ()⟩ false
    ⟨"a.png", "/w/a.pixels", "", false⟩ "boom" rfl
  exact ⟨h.1, by rw [(h.2.2.2.2 rfl).1]; rfl⟩

/-- C3: a build triggered by an IPC build event in persistent mode
never requests a process exit; the build is finished exactly once, and
when the environment makes the build fail, the single recorded error is
left in the finished result. -/
theorem c3_persistent_no_exit (env : ExtEnv) (data : BuildEventData) :
    (handle_build_event env true data).exitCode = none ∧
    finishCount (handle_build_event env true data).trace = 1 ∧
    (∀ e, buildFailCause env = some e →
      (handle_build_event env true data).result =
        some { outputs := [], errors := [e], succeeded := false }) := by
  cases hc : env.compileResult with
  | error e =>
    simp [handle_build_event, compiler_build, hc, startBuild, addError,
      finishBuild, finishCount, buildFailCause]
  | ok md =>
    cases hw : env.writeResult with
    | error e =>
      simp [handle_build_event, compiler_build, hc, hw, startBuild, addError,
        finishBuild, finishCount, buildFailCause]
    | ok u =>
      simp [handle_build_event, compiler_build, hc, hw, startBuild, addOutput,
        finishBuild, finishCount, buildFailCause]

/-- Witness for C3 at a concrete failing environment and event. -/
theorem c3_witness :
    (handle_build_event ⟨.error "bad image", .ok ()⟩ true
        ⟨"/s/a.png", "/t/a", ""⟩).exitCode = none ∧
    (handle_build_event ⟨.error "bad image", .ok ()⟩ true
        ⟨"/s/a.png", "/t/a", ""⟩).result =
      some { outputs := [], errors := ["bad image"], succeeded := false } := by
  have h := c3_persistent_no_exit ⟨.error "bad image", .ok ()⟩
    ⟨"/s/a.png", "/t/a", ""⟩
  exact ⟨h.1, h.2.2 "bad image" rfl⟩

/-- C4: on the successful path the recorded outputs are the metadata
path — the target path with its extension replaced by `texture`,
preserving directory and base name — followed by the target path
unchanged. -/
theorem c4_metadata_path_derivation (env : ExtEnv) (persistent : Bool)
    (input : BuildInput) (md : TexMeta)
    (hc : env.compileResult = .ok md) (hw : env.writeResult = .ok ()) :
    addedOutputs (compiler_build env persistent input).trace =
      [changeExtension input.targetPath "texture", input.targetPath] ∧
    dirOf (changeExtension input.targetPath "texture") =
      dirOf input.targetPath ∧
    baseOf (changeExtension input.targetPath "texture") =
      baseOf input.targetPath ∧
    extOf (changeExtension input.targetPath "texture") = "texture" := by
  have hparts := changeExtensionL_parts input.targetPath.data "texture".data
    (by decide) (by decide)
  refine ⟨?_, ?_, ?_, ?_⟩
  · simp [compiler_build, hc, hw, startBuild, addOutput, addedOutputs]
  · exact congrArg String.mk hparts.1
  · exact congrArg String.mk hparts.2.1
  · exact congrArg String.mk hparts.2.2

/-- Witness for C4 at a concrete environment and input. -/
theorem c4_witness :
    addedOutputs (compiler_build ⟨.ok ⟨"m"⟩, .ok ()⟩ false
        ⟨"d.png", "/out/d.pixels", "", false⟩).trace =
      ["/out/d.texture", "/out/d.pixels"] ∧
    dirOf "/out/d.texture" = "/out" ∧
    baseOf "/out/d.texture" = "d" ∧
    extOf "/out/d.texture" = "texture" := by
  have h := c4_metadata_path_derivation ⟨.ok ⟨"m"⟩, .ok ()⟩ false
    ⟨"d.png", "/out/d.pixels", "", false⟩ ⟨"m"⟩ rfl rfl
  refine ⟨by rw [h.1]; decide, by decide, by decide, by decide⟩

/-- C5 counterexample: in stand-alone mode a failing compile exits the
process (code 1) from inside the catch block BEFORE `finishBuild` is
reached, so the build state is finished zero times on that path — the
claim that `FinishBuild` is invoked exactly once on every path is false
as stated. -/
theorem c5_counterexample :
    finishCount (compiler_build ⟨.error "boom", .ok ()⟩ false
        ⟨"e.png", "/w/e.pixels", "", false⟩).trace = 0 ∧
    (compiler_build ⟨.error "boom", .ok ()⟩ false
        ⟨"e.png", "/w/e.pixels", "", false⟩).exitCode =
      some exit_code.ERROR := by
  decide

/-- C5 (amended): `finishBuild` is invoked exactly once per build in
persistent mode and on the stand-alone success path; on the stand-alone
failure path the process exits with the error code before the state is
finished, so it is finished zero times there. -/
theorem c5_finish_once_amended (env : ExtEnv) (persistent : Bool)
    (input : BuildInput) :
    ((persistent = true ∨ buildFailCause env = none) →
      finishCount (compiler_build env persistent input).trace = 1) ∧
    (persistent = false → ∀ e, buildFailCause env = some e →
      finishCount (compiler_build env persistent input).trace = 0 ∧
      (compiler_build env persistent input).exitCode =
        some exit_code.ERROR) := by
  cases persistent <;> cases hc : env.compileResult <;>
    cases hw : env.writeResult <;>
      simp [compiler_build, hc, hw, startBuild, addError, addOutput,
        finishBuild, finishCount, buildFailCause]

/-- Witness for the amended C5 at a concrete persistent-mode failure. -/
theorem c5_witness :
    finishCount (compiler_build ⟨.error "bad", .ok ()⟩ true
        ⟨"f.png", "/w/f.pixels", "", true⟩).trace = 1 :=
  (c5_finish_once_amended ⟨.error "bad", .ok ()⟩ true
    ⟨"f.png", "/w/f.pixels", "", true⟩).1 (Or.inl rfl)

/-- C6: in every build the sidecar write precedes any recorded output
in the event trace; and when the write fails after a successful
compile, that failure is recorded as the single build error, no output
is recorded and no file is left behind. -/
theorem c6_write_before_outputs (env : ExtEnv) (persistent : Bool)
    (input : BuildInput) :
    writeBeforeOutput (compiler_build env persistent input).trace = true ∧
    (∀ md e, env.compileResult = .ok md → env.writeResult = .error e →
      addedErrors (compiler_build env persistent input).trace = [e] ∧
      addedOutputs (compiler_build env persistent input).trace = [] ∧
      filesWritten (compiler_build env persistent input).trace = []) := by
  cases persistent <;> cases hc : env.compileResult <;>
    cases hw : env.writeResult <;>
      simp [compiler_build, hc, hw, startBuild, addError, addOutput,
        finishBuild, writeBeforeOutput, addedErrors, addedOutputs,
        filesWritten]

/-- Witness for C6 at a concrete write-failure environment. -/
theorem c6_witness :
    writeBeforeOutput (compiler_build ⟨.ok ⟨"m"⟩, .error "disk full"⟩ true
        ⟨"g.png", "/w/g.pixels", "", true⟩).trace = true ∧
    addedErrors (compiler_build ⟨.ok ⟨"m"⟩, .error "disk full"⟩ true
        ⟨"g.png", "/w/g.pixels", "", true⟩).trace = ["disk full"] ∧
    addedOutputs (compiler_build ⟨.ok ⟨"m"⟩, .error "disk full"⟩ true
        ⟨"g.png", "/w/g.pixels", "", true⟩).trace = [] := by
  have h := c6_write_before_outputs ⟨.ok ⟨"m"⟩, .error "disk full"⟩ true
    ⟨"g.png", "/w/g.pixels", "", true⟩
  have h2 := h.2 ⟨"m"⟩ "disk full" rfl rfl
  exact ⟨h.1, h2.1, h2.2.1⟩

/-- C7: in stand-alone mode, when the resolved source path does not
reference an existing file, the entry point exits with the distinct
file-not-found code, which is 2, before any build state is opened (the
outcome carries no build, only the exit and the printed lines). -/
theorem c7_missing_input_exit2 (cenv : CmdEnv) (benv : ExtEnv)
    (opts : CmdOpts) (hp : opts.persistent = false)
    (hf : cenv.isFile opts.input = false) :
    Main cenv benv opts =
      .exitedEarly exit_code.FILE_NOT_FOUND
        ["Error: No input file specified or input file not found.", ""] ∧
    exit_code.FILE_NOT_FOUND = 2 := by
  constructor
  · simp [Main, command_line, hp, hf]
  · rfl

/-- Witness for C7 at a concrete environment and options. -/
theorem c7_witness :
    Main ⟨fun _ => false, "/work", "argv"⟩ ⟨.ok ⟨"m"⟩, .ok ()⟩
        ⟨false, "missing.png", "", ""⟩ =
      .exitedEarly 2
        ["Error: No input file specified or input file not found.", ""] := by
  have h := c7_missing_input_exit2 ⟨fun _ => false, "/work", "argv"⟩
    ⟨.ok ⟨"m"⟩, .ok ()⟩ ⟨false, "missing.png", "", ""⟩ rfl rfl
  rw [h.1]
  rfl

/-- C8: the source registers its top-level catch-all handler under the
event name `unhandledException`, but the platform delivers uncaught
failures under the event name `uncaughtException`, for which no handler
is registered — so the registered handler (which would print the
documented message and exit with the error code 1) never runs. -/
theorem c8_handler_event_mismatch :
    processEventRegistrations.contains nodeUncaughtEventName = false ∧
    processEventRegistrations.contains "unhandledException" = true ∧
    unhandled_exception_handler "E" =
      (["An unhandled exception has occurred:", "  Error: E", ""],
        exit_code.ERROR) ∧
    exit_code.ERROR = 1 := by
  decide

/-- C9: in stand-alone mode with an existing input and no explicit
output, the derived target path is the input's base filename with its
extension replaced by `pixels`, joined to the current working
directory. -/
theorem c9_default_output_path (cenv : CmdEnv) (opts : CmdOpts)
    (hp : opts.persistent = false)
    (hf : cenv.isFile opts.input = true) (ho : opts.output = "") :
    command_line cenv opts =
      .ok { persistent := false, sourcePath := opts.input,
            targetPath := Path.join cenv.cwd
              (changeExtension (Path.basename opts.input) "pixels"),
            platform := opts.target } := by
  simp [command_line, hp, hf, ho]

/-- Witness for C9: input `photo.png` with cwd `/work` and no explicit
output yields target `/work/photo.pixels`, whose metadata path is
`/work/photo.texture`. -/
theorem c9_witness :
    command_line ⟨fun s => s == "photo.png", "/work", "argv"⟩
        ⟨false, "photo.png", "", ""⟩ =
      .ok { persistent := false, sourcePath := "photo.png",
            targetPath := "/work/photo.pixels", platform := "" } ∧
    changeExtension "/work/photo.pixels" "texture" = "/work/photo.texture" := by
  have h := c9_default_output_path ⟨fun s => s == "photo.png", "/work", "argv"⟩
    ⟨false, "photo.png", "", ""⟩ rfl (by decide) rfl
  exact ⟨by rw [h]; decide, by decide⟩

/-- C10: an omitted `--input` (commander's default is the empty string)
takes exactly the same path as a non-existent input file: the same
message is printed and the process exits with the file-not-found code
2; no separate usage-error exit code exists. -/
theorem c10_empty_input_file_not_found (cenv : CmdEnv) (opts : CmdOpts)
    (hp : opts.persistent = false) (hi : opts.input = "")
    (hf : cenv.isFile "" = false) :
    command_line cenv opts =
      .exited exit_code.FILE_NOT_FOUND
        ["Error: No input file specified or input file not found.", ""] ∧
    exit_code.FILE_NOT_FOUND = 2 := by
  constructor
  · simp [command_line, hp, hi, hf]
  · rfl

/-- Witness for C10 at a concrete environment and options. -/
theorem c10_witness :
    command_line ⟨fun s => s == "photo.png", "/work", "argv"⟩
        ⟨false, "", "", ""⟩ =
      .exited 2
        ["Error: No input file specified or input file not found.", ""] := by
  have h := c10_empty_input_file_not_found
    ⟨fun s => s == "photo.png", "/work", "argv"⟩ ⟨false, "", "", ""⟩
    rfl rfl (by decide)
  rw [h.1]
  rfl
